import Mathlib

/-!
Verification of the embedded-IPFS node core (`main.go`): a shallow embedding
of the peer connector (`connectToPeers`), repository initialization
(`createRepo`), the content accessors (`get`, `save`) and the `fetch`
bootstrap path, together with theorems about the behaviour these functions
guarantee.

External library calls (multiaddr parsing, `peer.AddrInfoFromP2pAddr`,
`ipfs.Swarm().Connect`, `config.Init`, `fsrepo.Init`, `Unixfs().Get`,
`files.WriteTo`, `os.Mkdir`) are modelled as environment parameters: the
theorems quantify over every behaviour those externals may exhibit, while
the control flow around them is translated line by line from the source.
-/

set_option autoImplicit false

namespace EmbeddedIpfs

/-- Peer identities (`peer.ID`), abstract. -/
abbrev PeerId := Nat

/-- Transport addresses (one component of a multiaddr), abstract. -/
abbrev Addr := String

/-- A parsed multiaddr (`ma.Multiaddr`), abstract. -/
abbrev Multiaddr := String

/-- `peer.AddrInfo`: a peer identity plus the transport addresses known for it. -/
structure AddrInfo where
  ID : PeerId
  Addrs : List Addr
deriving DecidableEq, Repr

/-- The external calls `connectToPeers` makes while parsing one address
string: `ma.NewMultiaddr` and `peer.AddrInfoFromP2pAddr`, each fallible. -/
structure AddrEnv where
  newMultiaddr : String → Except String Multiaddr
  addrInfoFromP2pAddr : Multiaddr → Except String AddrInfo

/-- Parsing of one bootstrap-address string in the loop body of
`connectToPeers` (main.go:129-136): `ma.NewMultiaddr` followed by
`peer.AddrInfoFromP2pAddr`, each error returned as-is. -/
def parseOne (env : AddrEnv) (s : String) : Except String AddrInfo :=
  match env.newMultiaddr s with
  | .error e => .error e
  | .ok addr =>
    match env.addrInfoFromP2pAddr addr with
    | .error e => .error e
    | .ok pii => .ok pii

/-- The map update in the loop body of `connectToPeers` (main.go:137-142):
look `pii.ID` up in `peerInfos`; if absent insert a fresh entry for it;
then append `pii.Addrs` to that entry's address list.  The Go map is
modelled as an association list in first-insertion order. -/
def insertMerge (pid : PeerId) (newAddrs : List Addr) :
    List (PeerId × List Addr) → List (PeerId × List Addr)
  | [] => [(pid, newAddrs)]
  | (p, as) :: rest =>
    if p = pid then (p, as ++ newAddrs) :: rest
    else (p, as) :: insertMerge pid newAddrs rest

/-- The whole parse/group loop of `connectToPeers` (main.go:128-143):
fold over the address strings, returning the first parse error, otherwise
the `peerInfos` map grouped by peer identity. -/
def buildPeerInfos (env : AddrEnv) :
    List String → List (PeerId × List Addr) →
    Except String (List (PeerId × List Addr))
  | [], infos => .ok infos
  | s :: rest, infos =>
    match parseOne env s with
    | .error e => .error e
    | .ok pii => buildPeerInfos env rest (insertMerge pii.ID pii.Addrs infos)

/-- Association-list lookup (the read half of the Go map access). -/
def lookupAddrs (pid : PeerId) : List (PeerId × List Addr) → Option (List Addr)
  | [] => none
  | (p, as) :: rest => if p = pid then some as else lookupAddrs pid rest

/-- All transport addresses the input list carries for identity `pid`,
concatenated in input order: the set the spec requires the single dial
attempt for `pid` to receive. -/
def mergedAddrs (env : AddrEnv) (peers : List String) (pid : PeerId) : List Addr :=
  (peers.filterMap (fun s =>
    match parseOne env s with
    | .ok pii => if pii.ID = pid then some pii.Addrs else none
    | .error _ => none)).flatten

/-- The peer identities carried by the input list, in input order. -/
def parsedIds (env : AddrEnv) (peers : List String) : List PeerId :=
  peers.filterMap (fun s =>
    match parseOne env s with
    | .ok pii => some pii.ID
    | .error _ => none)

/-- Observable outcome of one `connectToPeers` call: the value returned to
the caller, the dial set (one `Swarm().Connect` task per entry), and the
dials whose `Connect` failed (logged only, main.go:150-152). -/
structure ConnectOutcome where
  result : Option String
  dials : List (PeerId × List Addr)
  failedDials : List PeerId
deriving DecidableEq, Repr

/-- `connectToPeers` (main.go:125-157).  `dialOk` models the outcome of
`ipfs.Swarm().Connect` for each peer.  A parse error is returned before any
dial goroutine is spawned; otherwise one dial per distinct identity is
spawned, failures are only logged, and the call returns `nil`. -/
def connectToPeers (env : AddrEnv) (dialOk : PeerId → Bool)
    (peers : List String) : ConnectOutcome :=
  match buildPeerInfos env peers [] with
  | .error e => ⟨some e, [], []⟩
  | .ok infos =>
    ⟨none, infos, (infos.map Prod.fst).filter (fun p => !dialOk p)⟩

/-- The WaitGroup protocol around the dial goroutines
(main.go:145-156): the set of spawned-but-unfinished dials, the WaitGroup
counter, and whether `connectToPeers` has executed its `return nil`. -/
structure WGState where
  pending : List PeerId
  counter : Nat
  returned : Bool
deriving DecidableEq, Repr

/-- State after `wg.Add(len(peerInfos))` and the spawn loop: every dial
task pending, counter equal to the number of dials, call not yet
returned. -/
def initConn (dials : List (PeerId × List Addr)) : WGState :=
  ⟨dials.map Prod.fst, dials.length, false⟩

/-- One scheduler step of the dial phase: either some pending dial
goroutine finishes (running its deferred `wg.Done`, main.go:148), or the
main goroutine passes `wg.Wait()` and returns — which the WaitGroup
semantics allow only once the counter is zero (main.go:155-156). -/
inductive ConnStep : WGState → WGState → Prop
  | dialDone (p : PeerId) (pending : List PeerId) (c : Nat) (hp : p ∈ pending) :
      ConnStep ⟨pending, c + 1, false⟩ ⟨pending.erase p, c, false⟩
  | ret (pending : List PeerId) :
      ConnStep ⟨pending, 0, false⟩ ⟨pending, 0, true⟩

/-- The states the dial phase can reach from its initial state. -/
def ConnReach (dials : List (PeerId × List Addr)) (s : WGState) : Prop :=
  Relation.ReflTransGen ConnStep (initConn dials) s

/-- The hard-coded bootstrap list of `fetch` (main.go:295). -/
def fetchBootstrapNodes : List String := []

/-- The peer-connection behaviour of one `fetch` call (main.go:298-303):
the bootstrap list it hands to `connectToPeers`, the dial tasks that
background call spawns, and whether `fetch` joins the goroutine it spawned
(it does not: the `go func` is never waited on). -/
structure FetchConn where
  bootstrap : List String
  backgroundDials : List (PeerId × List Addr)
  joinsConnector : Bool
deriving DecidableEq, Repr

/-- The peer-connection side of `fetch`: `connectToPeers` is invoked in a
goroutine with the hard-coded empty list and never joined. -/
def fetchPeerConnection (env : AddrEnv) (dialOk : PeerId → Bool) : FetchConn :=
  ⟨fetchBootstrapNodes,
   (connectToPeers env dialOk fetchBootstrapNodes).dials,
   false⟩

/-- The six experimental-feature toggles of the repository config
(`cfg.Experimental`, main.go:203-216). -/
structure ExperimentalCfg where
  FilestoreEnabled : Bool
  UrlstoreEnabled : Bool
  ShardingEnabled : Bool
  Libp2pStreamMounting : Bool
  P2pHttpProxy : Bool
  StrategicProviding : Bool
deriving DecidableEq, Repr

/-- All six toggles off: the state of `cfg.Experimental` right after
`config.Init` produces the default configuration (main.go:198). -/
def expDefault : ExperimentalCfg := ⟨false, false, false, false, false, false⟩

/-- The experimental section of the config `createRepo` builds: if the
single `-experimental` flag is set, each of the six toggles is assigned
`true` (main.go:203-216); otherwise the defaults stand. -/
def expConfig (flagExp : Bool) : ExperimentalCfg :=
  if flagExp then ⟨true, true, true, true, true, true⟩ else expDefault

/-- The repository configuration `createRepo` passes to `fsrepo.Init`:
a fresh 2048-bit identity from `config.Init` (here an abstract seed)
plus the experimental section. -/
structure RepoConfig where
  keySize : Nat
  identity : Nat
  Experimental : ExperimentalCfg
deriving DecidableEq, Repr

/-- Outcome of the `os.Mkdir` call in `createRepo` (main.go:194):
success, failure because the directory already exists, or failure for any
other reason (permissions, missing parent, ...). -/
inductive MkdirOutcome
  | ok
  | errAlreadyExists
  | errOther (msg : String)
deriving DecidableEq, Repr

/-- Whether the `os.Mkdir` call returned a non-nil error. -/
def MkdirOutcome.isErr : MkdirOutcome → Bool
  | .ok => false
  | .errAlreadyExists => true
  | .errOther _ => true

/-- The on-disk repository location: whether `/tmp/embedded-ipfs` exists,
and the identity/config `fsrepo.Init` stored there, if any. -/
structure RepoDisk where
  dirExists : Bool
  stored : Option RepoConfig
deriving DecidableEq, Repr

/-- The repo path hard-coded in `createRepo` (main.go:192). -/
def repoPath : String := "/tmp/embedded-ipfs"

/-- `os.Mkdir` on the repo location: fails with "already exists" when the
directory is present, may fail for another reason (`forcedErr`), and
otherwise creates the directory. -/
def mkdirRepo (forcedErr : Option String) (d : RepoDisk) :
    MkdirOutcome × RepoDisk :=
  if d.dirExists then (.errAlreadyExists, d)
  else
    match forcedErr with
    | some e => (.errOther e, d)
    | none => (.ok, { d with dirExists := true })

/-- `createRepo` (main.go:190-228), threading the on-disk state.
`mkdirErr` forces a non-EEXIST `os.Mkdir` failure; `cfgInitOk` and
`fsInitOk` are the outcomes of `config.Init` and `fsrepo.Init`; `fresh` is
the identity `config.Init` would generate.  The source branches only on
`err == nil`: any `Mkdir` failure — already-exists or otherwise — takes the
`else` branch, prints "repo already exists", and returns the path with a
nil error, writing nothing. -/
def createRepo (mkdirErr : Option String) (cfgInitOk fsInitOk : Bool)
    (fresh : Nat) (flagExp : Bool) (d : RepoDisk) :
    Except String String × RepoDisk :=
  match mkdirRepo mkdirErr d with
  | (.ok, d1) =>
    if cfgInitOk then
      let cfg : RepoConfig := ⟨2048, fresh, expConfig flagExp⟩
      if fsInitOk then (.ok repoPath, { d1 with stored := some cfg })
      else (.error "failed to init ephemeral node", d1)
    else (.error "config init failed", d1)
  | (_, d1) => (.ok repoPath, d1)

/-- Result of a call that either returns a value or panics: the source's
`get` and `save` raise on failure instead of returning an error. -/
inductive Outcome (α : Type)
  | ret (a : α)
  | panicked (msg : String)
deriving DecidableEq, Repr

/-- An in-memory file or directory tree (`files.Node`), abstract. -/
abbrev FileNode := String

/-- `get` (main.go:320-331).  `unixfsGet` models `ipfs.Unixfs().Get` on
the path built from the CID string; when it returns an error — malformed
CID included — the source panics with a wrapped message, so the caller
never receives an error value. -/
def get (unixfsGet : String → Except String FileNode) (cid : String) :
    Outcome FileNode :=
  match unixfsGet cid with
  | .ok content => .ret content
  | .error e => .panicked ("could not get contents of CID: " ++ e)

/-- Observable outcome of one `save` call: the path handed to
`files.WriteTo`, and the value returned (or the panic raised). -/
structure SaveOutcome where
  wrotePath : String
  result : Outcome String
deriving DecidableEq, Repr

/-- `save` (main.go:173-185).  `writeTo` models `files.WriteTo content
path`, returning `some e` on failure.  The output path is the plain
concatenation `dir ++ cid`; on success exactly that path is returned. -/
def save (writeTo : FileNode → String → Option String) (dir : String)
    (content : FileNode) (cid : String) : SaveOutcome :=
  let path := dir ++ cid
  match writeTo content path with
  | some e =>
    ⟨path, .panicked ("could not write the fetched file to the temporary directory: " ++ e)⟩
  | none => ⟨path, .ret path⟩

/-- A concrete parsing environment used to evaluate the theorems: three
well-formed address strings ("addrA" and "addrB" both carrying identity 1
with different transport addresses, "addrC" carrying identity 2) and one
malformed string "bad" rejected by `ma.NewMultiaddr`. -/
def envW : AddrEnv where
  newMultiaddr := fun s =>
    if s = "bad" then .error "invalid multiaddr" else .ok s
  addrInfoFromP2pAddr := fun a =>
    if a = "addrA" then .ok ⟨1, ["tA"]⟩
    else if a = "addrB" then .ok ⟨1, ["tB"]⟩
    else if a = "addrC" then .ok ⟨2, ["tC"]⟩
    else .error "no p2p part"

/-- A concrete behaviour of `ipfs.Unixfs().Get` used to evaluate the
theorems about `get`: it rejects the malformed CID string
"not-a-valid-cid" and resolves every other CID. -/
def unixfsGetW : String → Except String FileNode := fun cid =>
  if cid = "not-a-valid-cid" then .error "invalid path" else .ok "content"

theorem lookupAddrs_insertMerge (q : PeerId) (as : List Addr)
    (l : List (PeerId × List Addr)) (pid : PeerId) :
    lookupAddrs pid (insertMerge q as l) =
      if q = pid then some ((lookupAddrs pid l).getD [] ++ as)
      else lookupAddrs pid l := by
  induction l with
  | nil =>
    by_cases h : q = pid <;> simp [insertMerge, lookupAddrs, h]
  | cons hd rest ih =>
    obtain ⟨p, bs⟩ := hd
    by_cases hq : q = pid
    · subst hq
      by_cases hpq : p = q
      · simp [insertMerge, lookupAddrs, hpq]
      · simp [insertMerge, lookupAddrs, hpq, ih]
    · by_cases hpq : p = q
      · have hp : ¬p = pid := fun hc => hq (hpq.symm.trans hc)
        simp [insertMerge, lookupAddrs, if_pos hpq, if_neg hp, if_neg hq]
      · by_cases hp : p = pid
        · have hq2 : ¬pid = q := fun hc => hpq (hp.trans hc)
          simp [insertMerge, lookupAddrs, if_neg hpq, if_neg hq, hp, hq2]
        · simp [insertMerge, lookupAddrs, if_neg hpq, if_neg hq, hp, ih]

theorem keys_insertMerge (q : PeerId) (as : List Addr)
    (l : List (PeerId × List Addr)) :
    (insertMerge q as l).map Prod.fst =
      if q ∈ l.map Prod.fst then l.map Prod.fst
      else l.map Prod.fst ++ [q] := by
  induction l with
  | nil => simp [insertMerge]
  | cons hd rest ih =>
    obtain ⟨p, bs⟩ := hd
    by_cases hpq : p = q
    · subst hpq
      simp [insertMerge]
    · by_cases hq : q ∈ rest.map Prod.fst <;>
        simp [insertMerge, hpq, hq, ih, Ne.symm hpq]

theorem nodup_keys_insertMerge (q : PeerId) (as : List Addr)
    (l : List (PeerId × List Addr)) (h : (l.map Prod.fst).Nodup) :
    ((insertMerge q as l).map Prod.fst).Nodup := by
  rw [keys_insertMerge]
  by_cases hq : q ∈ l.map Prod.fst
  · simpa [hq] using h
  · simp [hq, List.nodup_append, h]

theorem lookupAddrs_eq_none (pid : PeerId) (l : List (PeerId × List Addr)) :
    lookupAddrs pid l = none ↔ pid ∉ l.map Prod.fst := by
  induction l with
  | nil => simp [lookupAddrs]
  | cons hd rest ih =>
    obtain ⟨p, bs⟩ := hd
    by_cases h : p = pid
    · simp [lookupAddrs, h]
    · simp [lookupAddrs, h, ih, Ne.symm h]

theorem lookupAddrs_mem (pid : PeerId) (as : List Addr)
    (l : List (PeerId × List Addr)) (hnd : (l.map Prod.fst).Nodup)
    (h : (pid, as) ∈ l) : lookupAddrs pid l = some as := by
  induction l with
  | nil => simp at h
  | cons hd rest ih =>
    obtain ⟨p, bs⟩ := hd
    rcases List.mem_cons.mp h with heq | hrest
    · obtain ⟨h1, h2⟩ := Prod.mk.injEq .. ▸ heq
      simp [lookupAddrs, h1.symm, h2]
    · have hp : p ≠ pid := by
        intro hc
        subst hc
        have : p ∈ rest.map Prod.fst :=
          List.mem_map.mpr ⟨(p, as), hrest, rfl⟩
        exact (List.nodup_cons.mp hnd).1 this
      simpa [lookupAddrs, hp] using ih (List.nodup_cons.mp hnd).2 hrest

theorem mergedAddrs_cons_ok (env : AddrEnv) (s : String) (rest : List String)
    (pid : PeerId) (pii : AddrInfo) (hp : parseOne env s = .ok pii) :
    mergedAddrs env (s :: rest) pid =
      (if pii.ID = pid then pii.Addrs else []) ++ mergedAddrs env rest pid := by
  by_cases h : pii.ID = pid <;> simp [mergedAddrs, List.filterMap_cons, hp, h]

theorem parsedIds_cons_ok (env : AddrEnv) (s : String) (rest : List String)
    (pii : AddrInfo) (hp : parseOne env s = .ok pii) :
    parsedIds env (s :: rest) = pii.ID :: parsedIds env rest := by
  simp [parsedIds, List.filterMap_cons, hp]

theorem buildPeerInfos_lookup (env : AddrEnv) (peers : List String) :
    ∀ acc infos, buildPeerInfos env peers acc = .ok infos →
    ∀ pid, lookupAddrs pid infos =
      match lookupAddrs pid acc with
      | some as => some (as ++ mergedAddrs env peers pid)
      | none =>
        if pid ∈ parsedIds env peers then some (mergedAddrs env peers pid)
        else none := by
  induction peers with
  | nil =>
    intro acc infos h pid
    simp [buildPeerInfos] at h
    subst h
    cases hacc : lookupAddrs pid acc <;> simp [mergedAddrs, parsedIds]
  | cons s rest ih =>
    intro acc infos h pid
    simp only [buildPeerInfos] at h
    cases hp : parseOne env s with
    | error e => rw [hp] at h; exact absurd h (by simp)
    | ok pii =>
      rw [hp] at h
      have hrec := ih (insertMerge pii.ID pii.Addrs acc) infos h pid
      rw [lookupAddrs_insertMerge] at hrec
      rw [mergedAddrs_cons_ok env s rest pid pii hp,
        parsedIds_cons_ok env s rest pii hp]
      by_cases hid : pii.ID = pid
      · rw [if_pos hid] at hrec
        cases hacc : lookupAddrs pid acc with
        | some as =>
          rw [hacc] at hrec
          simp [hrec, hacc, hid, List.append_assoc]
        | none =>
          rw [hacc] at hrec
          simp [hrec, hacc, hid]
      · rw [if_neg hid] at hrec
        cases hacc : lookupAddrs pid acc with
        | some as =>
          rw [hacc] at hrec
          simp [hrec, hacc, hid]
        | none =>
          rw [hacc] at hrec
          simp [hrec, hacc, hid, Ne.symm hid]

theorem buildPeerInfos_nodup (env : AddrEnv) (peers : List String) :
    ∀ acc infos, buildPeerInfos env peers acc = .ok infos →
    (acc.map Prod.fst).Nodup → (infos.map Prod.fst).Nodup := by
  induction peers with
  | nil =>
    intro acc infos h hnd
    simp [buildPeerInfos] at h
    subst h
    exact hnd
  | cons s rest ih =>
    intro acc infos h hnd
    simp only [buildPeerInfos] at h
    cases hp : parseOne env s with
    | error e => rw [hp] at h; exact absurd h (by simp)
    | ok pii =>
      rw [hp] at h
      exact ih (insertMerge pii.ID pii.Addrs acc) infos h
        (nodup_keys_insertMerge pii.ID pii.Addrs acc hnd)

theorem buildPeerInfos_keys_mem (env : AddrEnv) (peers : List String)
    (acc infos : List (PeerId × List Addr))
    (h : buildPeerInfos env peers acc = .ok infos) (pid : PeerId) :
    pid ∈ infos.map Prod.fst ↔
      pid ∈ acc.map Prod.fst ∨ pid ∈ parsedIds env peers := by
  have hspec := buildPeerInfos_lookup env peers acc infos h pid
  have h1 := lookupAddrs_eq_none pid infos
  have h2 := lookupAddrs_eq_none pid acc
  have hiff : lookupAddrs pid infos = none ↔
      (lookupAddrs pid acc = none ∧ pid ∉ parsedIds env peers) := by
    cases hacc : lookupAddrs pid acc with
    | some as => rw [hacc] at hspec; simp [hspec]
    | none =>
      rw [hacc] at hspec
      by_cases hpi : pid ∈ parsedIds env peers <;> simp [hspec, hpi]
  constructor
  · intro hmem
    have hne : ¬lookupAddrs pid infos = none := fun hn => (h1.mp hn) hmem
    by_cases hpi : pid ∈ parsedIds env peers
    · exact Or.inr hpi
    · refine Or.inl ?_
      by_contra hc
      exact hne (hiff.mpr ⟨h2.mpr hc, hpi⟩)
  · intro hor
    by_contra hmem
    have hn := hiff.mp (h1.mpr hmem)
    rcases hor with hacc | hpi
    · exact (h2.mp hn.1) hacc
    · exact hn.2 hpi

/-- C1: when the address list carries the same peer identity on several
address strings, `connectToPeers` dials that identity exactly once —
no identity appears twice in the dial set — and the one dial entry for an
identity carries the merged list of all transport addresses the input
carries for it; an identity is dialed iff some input address carries it. -/
theorem connectToPeers_dedup (env : AddrEnv) (dialOk : PeerId → Bool)
    (peers : List String) (infos : List (PeerId × List Addr))
    (h : buildPeerInfos env peers [] = .ok infos) :
    ((connectToPeers env dialOk peers).dials.map Prod.fst).Nodup ∧
    (∀ pid addrs, (pid, addrs) ∈ (connectToPeers env dialOk peers).dials →
      addrs = mergedAddrs env peers pid) ∧
    (∀ pid, pid ∈ (connectToPeers env dialOk peers).dials.map Prod.fst ↔
      pid ∈ parsedIds env peers) := by
  have hd : (connectToPeers env dialOk peers).dials = infos := by
    simp [connectToPeers, h]
  rw [hd]
  have hnd : (infos.map Prod.fst).Nodup :=
    buildPeerInfos_nodup env peers [] infos h (by simp)
  refine ⟨hnd, ?_, ?_⟩
  · intro pid addrs hmem
    have hl := lookupAddrs_mem pid addrs infos hnd hmem
    have hspec := buildPeerInfos_lookup env peers [] infos h pid
    simp only [lookupAddrs] at hspec
    rw [hl] at hspec
    by_cases hpi : pid ∈ parsedIds env peers
    · rw [if_pos hpi] at hspec
      exact Option.some.inj hspec
    · rw [if_neg hpi] at hspec
      exact absurd hspec (by simp)
  · intro pid
    simpa using buildPeerInfos_keys_mem env peers [] infos h pid

/-- Witness for C1: addresses "addrA" and "addrB" both carry identity 1
(with transports "tA" and "tB"), "addrC" carries identity 2; the dial set
has no duplicate identity, identity 1 is dialed with both transports
merged, and exactly identities 1 and 2 are dialed. -/
theorem connectToPeers_dedup_witness :
    (((connectToPeers envW (fun _ => true) ["addrA", "addrB", "addrC"]).dials.map
      Prod.fst).Nodup ∧
    (∀ pid addrs,
      (pid, addrs) ∈
        (connectToPeers envW (fun _ => true) ["addrA", "addrB", "addrC"]).dials →
      addrs = mergedAddrs envW ["addrA", "addrB", "addrC"] pid) ∧
    (∀ pid,
      pid ∈
        (connectToPeers envW (fun _ => true) ["addrA", "addrB", "addrC"]).dials.map
          Prod.fst ↔
      pid ∈ parsedIds envW ["addrA", "addrB", "addrC"])) ∧
    (connectToPeers envW (fun _ => true) ["addrA", "addrB", "addrC"]).dials =
      [(1, ["tA", "tB"]), (2, ["tC"])] :=
  ⟨connectToPeers_dedup envW (fun _ => true) ["addrA", "addrB", "addrC"]
    [(1, ["tA", "tB"]), (2, ["tC"])] (by rfl), by rfl⟩

theorem buildPeerInfos_error_of_bad (env : AddrEnv) (peers : List String) :
    ∀ acc, (∃ s ∈ peers, ∃ e, parseOne env s = .error e) →
    ∃ e, buildPeerInfos env peers acc = .error e := by
  induction peers with
  | nil => intro acc h; simp at h
  | cons s rest ih =>
    intro acc h
    cases hp : parseOne env s with
    | error e => exact ⟨e, by simp [buildPeerInfos, hp]⟩
    | ok pii =>
      obtain ⟨t, ht, e, he⟩ := h
      rcases List.mem_cons.mp ht with rfl | htr
      · rw [hp] at he; exact absurd he (by simp)
      · simpa [buildPeerInfos, hp] using
          ih (insertMerge pii.ID pii.Addrs acc) ⟨t, htr, e, he⟩

/-- C2: if the address list contains at least one malformed address string,
`connectToPeers` returns an error for the whole call and spawns no dial at
all — the dial set and the failed-dial log are both empty, including for
the well-formed addresses in the list. -/
theorem connectToPeers_failfast (env : AddrEnv) (dialOk : PeerId → Bool)
    (peers : List String)
    (h : ∃ s ∈ peers, ∃ e, parseOne env s = .error e) :
    (∃ e, (connectToPeers env dialOk peers).result = some e) ∧
    (connectToPeers env dialOk peers).dials = [] ∧
    (connectToPeers env dialOk peers).failedDials = [] := by
  obtain ⟨e, he⟩ := buildPeerInfos_error_of_bad env peers [] h
  exact ⟨⟨e, by simp [connectToPeers, he]⟩, by simp [connectToPeers, he],
    by simp [connectToPeers, he]⟩

/-- Witness for C2: the well-formed "addrA" precedes the malformed "bad",
yet the call returns an error and not a single dial is attempted. -/
theorem connectToPeers_failfast_witness :
    (∃ e, (connectToPeers envW (fun _ => true) ["addrA", "bad"]).result = some e) ∧
    (connectToPeers envW (fun _ => true) ["addrA", "bad"]).dials = [] ∧
    (connectToPeers envW (fun _ => true) ["addrA", "bad"]).failedDials = [] :=
  connectToPeers_failfast envW (fun _ => true) ["addrA", "bad"]
    ⟨"bad", by simp, "invalid multiaddr", by rfl⟩

/-- C3: on a well-formed address list, `connectToPeers` returns `nil` even
when a strict subset of the dials fails: every distinct peer is still
dialed, and dial failures affect only the log. -/
theorem connectToPeers_partial_failure (env : AddrEnv) (dialOk : PeerId → Bool)
    (peers : List String) (infos : List (PeerId × List Addr))
    (hok : buildPeerInfos env peers [] = .ok infos)
    (_hfail : (infos.map Prod.fst).filter (fun p => !dialOk p) ≠ infos.map Prod.fst) :
    (connectToPeers env dialOk peers).result = none ∧
    (connectToPeers env dialOk peers).dials = infos := by
  exact ⟨by simp [connectToPeers, hok], by simp [connectToPeers, hok]⟩

/-- Witness for C3: peers 1 and 2 are distinct and the dial to peer 2
fails, yet the call returns `nil` and both dials are in the dial set. -/
theorem connectToPeers_partial_failure_witness :
    (connectToPeers envW (fun p => p == 1) ["addrA", "addrB", "addrC"]).result = none ∧
    (connectToPeers envW (fun p => p == 1) ["addrA", "addrB", "addrC"]).dials =
      [(1, ["tA", "tB"]), (2, ["tC"])] :=
  connectToPeers_partial_failure envW (fun p => p == 1)
    ["addrA", "addrB", "addrC"] [(1, ["tA", "tB"]), (2, ["tC"])]
    (by rfl) (by decide)

theorem connReach_invariant (dials : List (PeerId × List Addr)) (s : WGState)
    (h : ConnReach dials s) :
    s.counter = s.pending.length ∧ (s.returned = true → s.pending = []) := by
  induction h with
  | refl => simp [initConn]
  | tail hr hstep ih =>
    cases hstep with
    | dialDone p pending c hp =>
      obtain ⟨ih1, ih2⟩ := ih
      refine ⟨?_, by simp⟩
      have hl := List.length_erase_of_mem hp
      simp only at ih1 ⊢
      omega
    | ret pending =>
      obtain ⟨ih1, ih2⟩ := ih
      refine ⟨ih1, fun _ => ?_⟩
      simp only at ih1
      exact List.eq_nil_of_length_eq_zero ih1.symm

/-- C4: join/barrier semantics of the peer-connection pipeline.  In every
execution of the dial phase of `connectToPeers`, if the call has returned
then no spawned dial task is still pending (the WaitGroup only lets
`wg.Wait` pass at counter zero); and the background `connectToPeers` call
spawned by `fetch` creates no dial task at all, so no dial outlives
`fetch`'s call boundary either. -/
theorem connect_join_semantics (dials : List (PeerId × List Addr))
    (s : WGState) (h : ConnReach dials s) (hret : s.returned = true)
    (env : AddrEnv) (dialOk : PeerId → Bool) :
    s.pending = [] ∧
    (fetchPeerConnection env dialOk).backgroundDials = [] :=
  ⟨(connReach_invariant dials s h).2 hret, rfl⟩

/-- Witness for C4: with one dial task for peer 1, the schedule
"dial finishes, then the call returns" reaches the returned state, where
no dial is pending. -/
theorem connect_join_semantics_witness :
    (⟨[], 0, true⟩ : WGState).pending = [] ∧
    (fetchPeerConnection envW (fun _ => true)).backgroundDials = [] := by
  refine connect_join_semantics [(1, ["tA"])] ⟨[], 0, true⟩ ?_ rfl envW (fun _ => true)
  have s1 : ConnStep (initConn [(1, ["tA"])]) ⟨[], 0, false⟩ :=
    ConnStep.dialDone 1 [1] 0 (by simp)
  exact Relation.ReflTransGen.tail (Relation.ReflTransGen.single s1)
    (ConnStep.ret [])

/-- C10: `fetch` hands the peer connector the hard-coded empty bootstrap
list, in a background goroutine it never joins; the resulting dial set is
empty, so `fetch` never attempts a single peer dial. -/
theorem fetch_empty_bootstrap (env : AddrEnv) (dialOk : PeerId → Bool) :
    fetchPeerConnection env dialOk =
      ⟨[], [], false⟩ ∧ fetchBootstrapNodes = [] :=
  ⟨rfl, rfl⟩

/-- C5 counterexample: with the repo directory absent and `os.Mkdir`
failing with a permission error — a reason other than "already exists" —
`createRepo` does not fail: it returns the repo path with a nil error,
treating the location as an existing repository. -/
theorem createRepo_mkdir_error_cex :
    (mkdirRepo (some "permission denied") ⟨false, none⟩).1 =
      MkdirOutcome.errOther "permission denied" ∧
    (createRepo (some "permission denied") true true 7 false ⟨false, none⟩).1 =
      Except.ok repoPath :=
  ⟨rfl, rfl⟩

/-- C5 amended: whenever the `os.Mkdir` call fails — whether because the
directory already exists or for any other reason — `createRepo` takes the
"repo already exists" branch: it returns the repo path with a nil error
and writes nothing; no `RepoInitError` distinguishes the non-exists
failures. -/
theorem createRepo_mkdir_error_ignored (mkdirErr : Option String)
    (cfgInitOk fsInitOk : Bool) (fresh : Nat) (flagExp : Bool) (d : RepoDisk)
    (h : (mkdirRepo mkdirErr d).1.isErr = true) :
    createRepo mkdirErr cfgInitOk fsInitOk fresh flagExp d = (.ok repoPath, d) := by
  by_cases hd : d.dirExists
  · simp [createRepo, mkdirRepo, hd]
  · cases mkdirErr with
    | some e => simp [createRepo, mkdirRepo, hd]
    | none => simp [mkdirRepo, hd, MkdirOutcome.isErr] at h

/-- Witness for C5's amended claim: a permission failure of `os.Mkdir` on
an absent directory still yields a nil error and an untouched disk. -/
theorem createRepo_mkdir_error_ignored_witness :
    createRepo (some "permission denied") true true 9 true ⟨false, none⟩ =
      (.ok repoPath, ⟨false, none⟩) :=
  createRepo_mkdir_error_ignored (some "permission denied") true true 9 true
    ⟨false, none⟩ (by rfl)

/-- C6: repository initialization is idempotent.  If the repo location
already exists after a first `createRepo` call, a second call — whatever
identity `config.Init` would now generate and whatever flags are set —
returns the repo path with a nil error and leaves the on-disk state,
identity and config included, exactly as the first call left it. -/
theorem createRepo_idempotent (m1 m2 : Option String) (c1 f1 c2 f2 : Bool)
    (fr1 fr2 : Nat) (fl1 fl2 : Bool) (d0 : RepoDisk)
    (h : ((createRepo m1 c1 f1 fr1 fl1 d0).2).dirExists = true) :
    createRepo m2 c2 f2 fr2 fl2 (createRepo m1 c1 f1 fr1 fl1 d0).2 =
      (.ok repoPath, (createRepo m1 c1 f1 fr1 fl1 d0).2) := by
  set d1 := (createRepo m1 c1 f1 fr1 fl1 d0).2 with hd1
  simp [createRepo, mkdirRepo, h]

/-- Witness for C6: a first call on a fresh location stores a config with
identity 7; a second call with a different candidate identity 8 and the
experimental flag flipped changes nothing on disk. -/
theorem createRepo_idempotent_witness :
    createRepo none true true 8 true (createRepo none true true 7 false ⟨false, none⟩).2 =
      (.ok repoPath, (createRepo none true true 7 false ⟨false, none⟩).2) :=
  createRepo_idempotent none none true true true true 7 8 false true
    ⟨false, none⟩ (by rfl)

/-- C7 counterexample: the six experimental toggles are not independently
togglable — the only input that sets them is the single `-experimental`
flag, and no value of it produces a config with the filestore toggle on
and the url-store toggle off. -/
theorem experimental_toggles_not_independent :
    ¬ ∃ flagExp : Bool, (expConfig flagExp).FilestoreEnabled = true ∧
      (expConfig flagExp).UrlstoreEnabled = false := by
  rintro ⟨b, h1, h2⟩
  cases b <;> simp [expConfig, expDefault] at h1 h2

/-- C7 amended: each of the six experimental toggles defaults to false, and
the single `-experimental` flag sets all six jointly to true — they are
toggled together, not independently. -/
theorem experimental_toggles_joint :
    expConfig false = expDefault ∧
    expDefault = ⟨false, false, false, false, false, false⟩ ∧
    expConfig true = ⟨true, true, true, true, true, true⟩ :=
  ⟨rfl, rfl, rfl⟩

/-- C8 counterexample: on the malformed CID "not-a-valid-cid" the `get`
operation panics with a wrapped message; it does not return a
`ResolutionError` — its return type carries no error value at all. -/
theorem get_malformed_cid_panics :
    get unixfsGetW "not-a-valid-cid" =
      Outcome.panicked "could not get contents of CID: invalid path" :=
  rfl

/-- C8 amended: whenever resolving the CID fails — malformed CID included —
`get` panics with the wrapped resolution error instead of returning it to
the caller. -/
theorem get_resolution_failure_panics (unixfsGet : String → Except String FileNode)
    (cid e : String) (h : unixfsGet cid = .error e) :
    get unixfsGet cid = .panicked ("could not get contents of CID: " ++ e) := by
  simp [get, h]

/-- Witness for C8's amended claim, at the malformed CID of the spec's
scenario. -/
theorem get_resolution_failure_panics_witness :
    get unixfsGetW "not-a-valid-cid" =
      Outcome.panicked ("could not get contents of CID: " ++ "invalid path") :=
  get_resolution_failure_panics unixfsGetW "not-a-valid-cid" "invalid path" (by rfl)

/-- C9: `save` hands `files.WriteTo` exactly the plain concatenation
`dir ++ cid` — no separator normalization — and when the write succeeds it
returns exactly that path. -/
theorem save_concat_path (writeTo : FileNode → String → Option String)
    (dir : String) (content : FileNode) (cid : String)
    (h : writeTo content (dir ++ cid) = none) :
    (save writeTo dir content cid).wrotePath = dir ++ cid ∧
    (save writeTo dir content cid).result = .ret (dir ++ cid) := by
  simp [save, h]

/-- Witness for C9: a destination without a trailing separator is simply
concatenated with the name, and the returned path is that concatenation. -/
theorem save_concat_path_witness :
    (save (fun _ _ => none) "/tmp/out" "filebytes" "QmCid").wrotePath =
      "/tmp/outQmCid" ∧
    (save (fun _ _ => none) "/tmp/out" "filebytes" "QmCid").result =
      Outcome.ret "/tmp/outQmCid" :=
  save_concat_path (fun _ _ => none) "/tmp/out" "filebytes" "QmCid" rfl

end EmbeddedIpfs
